import Mathlib

/-!
Shallow embedding of the RAG pipeline core (`backend/app/services/document_processor.py`,
`backend/app/services/vector_db_service.py`, `backend/app/services/query_processor.py`)
and proofs of the specification claims about it.

Python strings are modelled as Lean `String`/`List Char`; the regular-expression
rewrites used by the cleaner are modelled as direct character-list scans with the
same matching semantics (leftmost, non-overlapping, greedy); floating point
distances are modelled as rationals (the code only compares them); exceptions are
modelled with `Option`/`Except`.
-/

namespace RagPipeline

/-- Dropping a prefix cannot lengthen a list. -/
theorem lengthDropWhileLe {α : Type} (p : α → Bool) (l : List α) :
    (l.dropWhile p).length ≤ l.length :=
  (List.dropWhile_suffix p).sublist.length_le

/-- ASCII whitespace as matched by Python's regex `\s` and stripped by `str.strip()`. -/
def isPySpace (c : Char) : Bool :=
  c = ' ' || c = '\t' || c = '\n' || c = '\r' || c = '\x0b' || c = '\x0c'

/-- Python `str.strip()` on a character list: drop whitespace from both ends. -/
def pyStripL (s : List Char) : List Char :=
  (s.dropWhile isPySpace).rdropWhile isPySpace

/-- Python `str.strip()`. -/
def pyStrip (s : String) : String :=
  String.mk (pyStripL s.data)

/-- The characters of the lookbehind class `[.\-•:!?]` in `_clean_narrative_text`. -/
def isHardBreakPrev (c : Char) : Bool :=
  c = '.' || c = '-' || c = '•' || c = ':' || c = '!' || c = '?'

/-- Lookbehind test on an optional preceding character (`None` = start of string). -/
def prevKeep : Option Char → Bool
  | some c => isHardBreakPrev c
  | none => false

/-- Scanner for `re.sub(r'\n\s*\n', '\n', text)`: each leftmost match starts at
a newline and extends (greedily, then backtracking to end on a newline) over
following whitespace up to the last newline of that whitespace run; the match is
replaced by a single newline and the scan resumes after it. The `Bool` mode is
true while inside a match, after its emitted newline and before its last
newline. -/
def collapseBlankLinesGo : Bool → List Char → List Char
  | _, [] => []
  | false, c :: cs =>
    if c = '\n' ∧ '\n' ∈ cs.takeWhile isPySpace then '\n' :: collapseBlankLinesGo true cs
    else c :: collapseBlankLinesGo false cs
  | true, c :: cs =>
    if c = '\n' ∧ '\n' ∉ cs.takeWhile isPySpace then collapseBlankLinesGo false cs
    else if '\n' ∈ cs.takeWhile isPySpace then collapseBlankLinesGo true cs
    else c :: collapseBlankLinesGo false cs

/-- Pass `re.sub(r'\n\s*\n', '\n', text)`. -/
def collapseBlankLines (s : List Char) : List Char :=
  collapseBlankLinesGo false s

/-- Pass `re.sub(r'(?<![.\-•:!?])\n', ' ', text)`, scanning with the original
preceding character as lookbehind context. -/
def joinSoftBreaksAux (prev : Option Char) : List Char → List Char
  | [] => []
  | c :: cs =>
    (if c = '\n' ∧ prevKeep prev = false then ' ' else c) :: joinSoftBreaksAux (some c) cs

/-- Pass `re.sub(r'(?<![.\-•:!?])\n', ' ', text)`. -/
def joinSoftBreaks (s : List Char) : List Char :=
  joinSoftBreaksAux none s

/-- Scanner for `re.sub(r' {2,}', ' ', text)`: every maximal run of two or more
spaces becomes a single space; a run of one space is untouched, which coincides
with emitting one space per maximal run. The `Bool` mode is true inside a space
run whose single space was already emitted. -/
def collapseSpacesGo : Bool → List Char → List Char
  | _, [] => []
  | inRun, c :: cs =>
    if c = ' ' then
      if inRun then collapseSpacesGo true cs
      else ' ' :: collapseSpacesGo true cs
    else c :: collapseSpacesGo false cs

/-- Pass `re.sub(r' {2,}', ' ', text)`. -/
def collapseSpaces (s : List Char) : List Char :=
  collapseSpacesGo false s

/-- Source `DocumentProcessorService._clean_narrative_text` on a character list:
the three `re.sub` passes followed by `str.strip()`. -/
def cleanNarrativeTextL (s : List Char) : List Char :=
  pyStripL (collapseSpaces (joinSoftBreaks (collapseBlankLines s)))

/-- Source `DocumentProcessorService._clean_narrative_text`. -/
def cleanNarrativeText (text : String) : String :=
  String.mk (cleanNarrativeTextL text.data)

/-- Scanner for `re.sub(r'\s+', ' ', text)`: every maximal whitespace run
becomes one space. -/
def collapseAllWhitespaceGo : Bool → List Char → List Char
  | _, [] => []
  | inRun, c :: cs =>
    if isPySpace c then
      if inRun then collapseAllWhitespaceGo true cs
      else ' ' :: collapseAllWhitespaceGo true cs
    else c :: collapseAllWhitespaceGo false cs

/-- Pass `re.sub(r'\s+', ' ', text)`. -/
def collapseAllWhitespace (s : List Char) : List Char :=
  collapseAllWhitespaceGo false s

/-- Source `DocumentProcessorService._clean_structured_text`. -/
def cleanStructuredText (text : String) : String :=
  String.mk (pyStripL (collapseAllWhitespace text.data))

/-- The source types dispatched to the narrative cleaning strategy. -/
def narrativeSourceTypes : List String := ["pdf", "txt", "docx", "image"]

/-- The source types dispatched to the structured cleaning strategy. -/
def structuredSourceTypes : List String := ["csv", "excel"]

/-- Source `DocumentProcessorService.clean_text`: strategy dispatch on `source_type`,
with the narrative strategy as fallback for unknown types. -/
def cleanText (text : String) (source_type : String) : String :=
  if text = "" then ""
  else if source_type ∈ narrativeSourceTypes then cleanNarrativeText text
  else if source_type ∈ structuredSourceTypes then cleanStructuredText text
  else cleanNarrativeText text

/-- The sentence-ending characters of the chunker's split regex `(?<=[.!?])\s+`. -/
def isSentencePunct (c : Char) : Bool :=
  c = '.' || c = '!' || c = '?'

/-- Lookbehind of the split regex: test on the last accumulated character. -/
def headPunct : List Char → Bool
  | p :: _ => isSentencePunct p
  | [] => false

/-- Scanner for `re.split(r'(?<=[.!?])\s+', text)`: a delimiter is a maximal
whitespace run whose immediately preceding character is one of `.`, `!`, `?`.
The accumulator holds the current segment reversed; the `Bool` mode is true
while consuming a delimiter's whitespace (the accumulator is then empty). -/
def splitSentencesGo : Bool → List Char → List Char → List String
  | _, acc, [] => [String.mk acc.reverse]
  | skipping, acc, c :: cs =>
    if skipping && isPySpace c then splitSentencesGo true acc cs
    else if headPunct acc && isPySpace c then
      String.mk acc.reverse :: splitSentencesGo true [] cs
    else splitSentencesGo false (c :: acc) cs

/-- The sentence splitter of `chunk_text_by_sentences`. -/
def splitSentences (text : String) : List String :=
  splitSentencesGo false [] text.data

/-- The generator loop of `chunk_text_by_sentences`: accumulate sentences and
flush when `(i + 1) % sentences_per_chunk == 0` or at the last index. -/
def chunkLoop (n total : Nat) : Nat → List String → List String → List String
  | _, _, [] => []
  | i, cur, s :: rest =>
    if (i + 1) % n = 0 ∨ i = total - 1 then
      String.intercalate " " (cur ++ [s]) :: chunkLoop n total (i + 1) [] rest
    else
      chunkLoop n total (i + 1) (cur ++ [s]) rest

/-- Source `DocumentProcessorService.chunk_text_by_sentences` (the generator run to a list). -/
def chunkTextBySentences (text : String) (sentences_per_chunk : Nat := 5) : List String :=
  if text = "" then []
  else
    let sentences := splitSentences text
    chunkLoop sentences_per_chunk sentences.length 0 [] sentences

/-- Spec-side definition (from the spec's words, for comparison with the code):
group a sentence list into consecutive, non-overlapping windows of `n`
sentences, the final window possibly shorter. -/
def sentenceWindows {α : Type} (n : Nat) : List α → List (List α)
  | [] => []
  | x :: xs => (x :: xs.take (n - 1)) :: sentenceWindows n (xs.drop (n - 1))
termination_by l => l.length
decreasing_by
  · simp only [List.length_cons, Nat.lt_succ_iff]
    exact Nat.le_trans (List.length_drop .. ▸ Nat.sub_le _ _) (Nat.le_refl _)

/-! ## Data model and gateways (`document_processor.py`, `vector_db_service.py`) -/

/-- Embedding vectors; the code never inspects components, so the scalar type
only needs decidable equality. Rationals model the floats. -/
abbrev Embedding := List ℚ

/-- A scalar metadata value (strings, numbers, booleans — the sanitized forms). -/
inductive MetaVal where
  | s (v : String)
  | n (v : Int)
  | b (v : Bool)
deriving DecidableEq, Repr

/-- A Python metadata dict, as an association list in insertion order. -/
abbrev Metadata := List (String × MetaVal)

/-- Python `dict.get(key)`. -/
def metaGet (md : Metadata) (key : String) : Option MetaVal :=
  (md.find? (fun kv => kv.1 == key)).map (fun kv => kv.2)

/-- Python dict update (as in a dict literal with an overriding key): replace the
value in place if the key exists, otherwise append the pair. -/
def dictInsert (md : Metadata) (key : String) (v : MetaVal) : Metadata :=
  if md.any (fun kv => kv.1 == key) then
    md.map (fun kv => if kv.1 == key then (kv.1, v) else kv)
  else md ++ [(key, v)]

/-- A raw ingested document as consumed by `process_documents`: any of the dict
keys may be absent. -/
structure RawDocument where
  doc_id : Option String
  text : Option String
  metadata : Option Metadata
deriving Repr

/-- Python falsiness of an optional string (`None` or `""`). -/
def falsyStr : Option String → Bool
  | none => true
  | some s => s == ""

/-- Lookup `metadata.get("source_type", "narrative")`; a non-string tag matches neither
strategy list, which lands in the same narrative fallback as `""`. -/
def sourceTypeOf (md : Metadata) : String :=
  match metaGet md "source_type" with
  | some (.s v) => v
  | some _ => ""
  | none => "narrative"

/-- Whether `settings.google_genai_api_key` is configured. -/
structure EmbedConfig where
  apiKeyPresent : Bool

/-- The external batch-embedding call `genai.embed_content`; `none` models the
call raising. -/
structure EmbedGateway where
  embedBatch : List String → Option (List Embedding)

/-- Source `DocumentProcessorService.get_embeddings`: missing API key or a failed batch
call raise `LLMError` (the error string); otherwise the batch's embeddings. -/
def getEmbeddings (cfg : EmbedConfig) (gw : EmbedGateway) (texts : List String) :
    Except String (List Embedding) :=
  if cfg.apiKeyPresent = false then
    .error "GEMINI_API_KEY is not configured. Cannot generate embeddings."
  else if texts = [] then .ok []
  else
    match gw.embedBatch texts with
    | some es => .ok es
    | none => .error "Failed to generate embeddings for document chunks."

/-- A processed chunk record ready for the vector database. -/
structure ProcessedChunk where
  chunk_id : String
  doc_id : String
  text_chunk : String
  embedding : Embedding
  metadata : Metadata
deriving DecidableEq, Repr

/-- One record of the chunk-assembly loop body in `process_documents`. -/
def mkProcessedChunk (doc_id : String) (md : Metadata) (chunk_index : Nat)
    (chunk_text : String) (e : Embedding) : ProcessedChunk :=
  { chunk_id := doc_id ++ "_chunk_" ++ toString chunk_index
    doc_id := doc_id
    text_chunk := chunk_text
    embedding := e
    metadata := dictInsert md "chunk_number" (.n chunk_index) }

/-- The chunk-assembly loop of `process_documents`: for each enumerated chunk,
index into `chunk_embeddings` (`none` models an `IndexError` escaping). -/
def buildDocChunks (doc_id : String) (md : Metadata) (text_chunks : List String)
    (embs : List Embedding) : Option (List ProcessedChunk) :=
  text_chunks.enum.mapM (fun p =>
    (embs.get? p.1).map (fun e => mkProcessedChunk doc_id md p.1 p.2 e))

/-- Source `DocumentProcessorService.process_documents`: clean, chunk, embed, assemble;
documents with missing id/text, empty cleaned text, zero chunks, or a failed
embedding call are skipped; `none` models an uncaught exception. -/
def processDocuments (cfg : EmbedConfig) (gw : EmbedGateway) :
    List RawDocument → Option (List ProcessedChunk)
  | [] => some []
  | d :: ds =>
    let md := d.metadata.getD []
    let source_type := sourceTypeOf md
    if falsyStr d.doc_id || falsyStr d.text then processDocuments cfg gw ds
    else
      let doc_id := d.doc_id.getD ""
      let cleaned := cleanText (d.text.getD "") source_type
      if cleaned = "" then processDocuments cfg gw ds
      else
        let text_chunks := chunkTextBySentences cleaned 5
        if text_chunks = [] then processDocuments cfg gw ds
        else
          match getEmbeddings cfg gw text_chunks with
          | .error _ => processDocuments cfg gw ds
          | .ok embs =>
            match buildDocChunks doc_id md text_chunks embs with
            | none => none
            | some cs => (processDocuments cfg gw ds).map (fun rest => cs ++ rest)

/-- Spec-side helper: the chunk records of one document from already-paired
(chunk text, embedding) lists, with ascending chunk numbers from `i`. -/
def chunksOfPairs (doc_id : String) (md : Metadata) :
    Nat → List (String × Embedding) → List ProcessedChunk
  | _, [] => []
  | i, (t, e) :: rest => mkProcessedChunk doc_id md i t e :: chunksOfPairs doc_id md (i + 1) rest

/-- Spec-side definition (from the spec's words): the chunks contributed by one
document — its cleaned text's chunks paired with their embeddings when every
pre-check passes and the embedding call succeeds, nothing otherwise. -/
def specDocChunks (cfg : EmbedConfig) (gw : EmbedGateway) (d : RawDocument) :
    List ProcessedChunk :=
  let md := d.metadata.getD []
  let source_type := sourceTypeOf md
  if falsyStr d.doc_id || falsyStr d.text then []
  else
    let doc_id := d.doc_id.getD ""
    let cleaned := cleanText (d.text.getD "") source_type
    if cleaned = "" then []
    else
      let text_chunks := chunkTextBySentences cleaned 5
      if text_chunks = [] then []
      else
        match getEmbeddings cfg gw text_chunks with
        | .error _ => []
        | .ok embs => chunksOfPairs doc_id md 0 (text_chunks.zip embs)

/-! ## Vector store gateway (`vector_db_service.py`) -/

/-- The metadata filter passed to ChromaDB, determined by its `doc_id` id list. -/
abbrev MetaFilter := List String

/-- The (already `[0]`-projected) result lists of `collection.query`. -/
structure ChromaRaw where
  ids : List String
  documents : List String
  metadatas : List Metadata
  distances : List ℚ

/-- The external ChromaDB collection; `none` from `query` models the call raising. -/
structure ChromaCollection where
  query : Embedding → Nat → Option MetaFilter → Option ChromaRaw

/-- A formatted retrieval candidate (the dict built by `query_documents`). -/
structure Candidate where
  chunk_id : String
  text_chunk : Option String
  metadata : Option Metadata
  distance : Option ℚ
deriving DecidableEq

/-- The application exception taxonomy (`core/exceptions.py`), plus `pyError`
for exceptions of non-application types (`TypeError`, ...). -/
inductive AppError where
  | llmError (message details : String)
  | vectorDBError (message details : String)
  | queryProcessingError (message details : String)
  | pyError (message : String)
deriving DecidableEq, Repr

/-- The result-formatting loop of `query_documents`: one candidate per id, the
parallel lists read with an `i < len` guard (`None` past the end). -/
def formatResults (raw : ChromaRaw) : List Candidate :=
  (List.range raw.ids.length).map (fun i =>
    { chunk_id := (raw.ids.get? i).getD ""
      text_chunk := raw.documents.get? i
      metadata := raw.metadatas.get? i
      distance := raw.distances.get? i })

/-- Source `VectorDBService.query_documents`. -/
def queryDocuments (collection : Option ChromaCollection) (query_embedding : Embedding)
    (n_results : Nat) (allowed_doc_ids : Option (List String)) :
    Except AppError (List Candidate) :=
  match collection with
  | none => .error (.vectorDBError "ChromaDB collection is not initialized." "")
  | some coll =>
    match allowed_doc_ids with
    | some [] => .ok []
    | _ =>
      let filter_metadata : Option MetaFilter :=
        match allowed_doc_ids with
        | some ids => if ids = [] then none else some ids
        | none => none
      match coll.query query_embedding n_results filter_metadata with
      | none => .error (.vectorDBError "Error querying ChromaDB." "")
      | some results =>
        if results.ids = [] then .ok []
        else .ok (formatResults results)

/-! ## Query orchestrator (`query_processor.py`) -/

/-- The sentinel the synthesis prompt asks the model to emit when the context
has no answer. -/
def LLM_NO_ANSWER_RESPONSE : String := "LLM_INTERNAL_NO_ANSWER_FLAG"

/-- The L2-distance relevance threshold (lower is better). -/
def RELEVANCE_THRESHOLD : ℚ := 1

/-- The external capabilities `QueryProcessorService` holds: the query-embedding
call, the chat model (absent when unconfigured; responses of `none` model
`generate_content_async` raising), and the vector store's collection. -/
structure QueryGateways where
  genaiEmbed : String → Option Embedding
  chatModel : Option (String → Option String)
  collection : Option ChromaCollection

/-- Source `QueryProcessorService._generate_query_embedding`. -/
def generateQueryEmbedding (g : QueryGateways) (query_text : String) :
    Except AppError Embedding :=
  match g.genaiEmbed query_text with
  | some e => .ok e
  | none => .error (.llmError "Failed to generate embedding for the user query." "")

/-- The f-string prompt of `_synthesize_answer`. -/
def synthesisPrompt (query_text consolidated_context : String) : String :=
  "\n        User Query: \"" ++ query_text ++ "\"\n        Context:\n        ---\n        "
    ++ consolidated_context
    ++ "\n        ---\n        Your Task: Based ONLY on the provided Context, answer the User Query. Also explain over your answer in brief if u retireved the answer from the context. If the Context does not contain the answer, you MUST respond with the exact phrase: "
    ++ LLM_NO_ANSWER_RESPONSE ++ "\n        "

/-- Python `str.join` over values that may be `None`: `none` models the `TypeError`. -/
def joinOptContext (sep : String) (chunks : List (Option String)) : Option String :=
  (chunks.mapM id).map (String.intercalate sep)

/-- Source `QueryProcessorService._synthesize_answer`: fixed string when the model is
unconfigured, the stripped response on success, a fixed error string when the
generate call raises; the join's `TypeError` is the only escaping exception. -/
def synthesizeAnswer (chat_model : Option (String → Option String)) (query_text : String)
    (context_chunks : List (Option String)) : Except AppError String :=
  match chat_model with
  | none => .ok "Error: Model not configured."
  | some respond =>
    match joinOptContext "\n\n---\n\n" context_chunks with
    | none => .error (.pyError "TypeError: sequence item: expected str instance, NoneType found")
    | some consolidated_context =>
      match respond (synthesisPrompt query_text consolidated_context) with
      | some t => .ok (pyStrip t)
      | none => .ok "An error occurred while generating the answer."

/-- The f-string prompt of the retrieval-failure branch. -/
def retrievalFailurePrompt (query_text : String) : String :=
  "\n            You are a helpful AI assistant. Your primary task failed because when the user asked \""
    ++ query_text
    ++ "\", you could not find any relevant documents at all.\n            Your task is to tell the user this in a helpful, conversational way.\n            - Acknowledge their query.\n            - Explain that you searched the provided documents but couldn't find any information on that topic.\n            - Suggest they try rephrasing the question or asking about a topic you know is in the documents (though you don't know what that is).\n            - Keep it concise and friendly. Do not use your general knowledge.\n            "

/-- The f-string prompt of the synthesis-failure branch. -/
def synthesisFailurePrompt (query_text : String) : String :=
  "\n            You are a helpful AI assistant. Your primary task failed. The user asked \""
    ++ query_text
    ++ "\", and you found some related documents, but after reading them, you concluded they don't contain a specific answer.\n            Your task is to explain this to the user in a helpful, conversational way.\n            - Acknowledge their query.\n            - Explain that while you found some related information, the specific details to answer their question weren't present in the documents.\n            - This implies they are asking about the right general topic, but need to ask a different question about it.\n            - Keep it concise and friendly. Do not use your general knowledge.\n            "

/-- The `failure_type` dispatch of `_generate_helpful_failure_response`: which
prompt is sent, `none` for the unknown-type early return. -/
def failurePromptChoice (failure_type query_text : String) : Option String :=
  if failure_type = "retrieval_failure" then some (retrievalFailurePrompt query_text)
  else if failure_type = "synthesis_failure" then some (synthesisFailurePrompt query_text)
  else none

/-- Source `QueryProcessorService._generate_helpful_failure_response`: all of its own
LLM failures degrade to fixed apology strings; it never raises. -/
def generateHelpfulFailureResponse (chat_model : Option (String → Option String))
    (failure_type query_text : String) : String :=
  match chat_model with
  | none => "I'm sorry, I couldn't find an answer and my response generator is also offline."
  | some respond =>
    match failurePromptChoice failure_type query_text with
    | none => "I'm sorry, an unexpected error occurred."
    | some prompt =>
      match respond prompt with
      | some t => pyStrip t
      | none => "I'm sorry, I couldn't find an answer to your question."

/-- The relevance filter of `process_query`: keep candidates whose `distance`
entry is present and strictly below the threshold, in input order. -/
def relevanceFilter (initial_chunks_data : List Candidate) (threshold : ℚ) : List Candidate :=
  initial_chunks_data.filter (fun c =>
    match c.distance with
    | some d => decide (d < threshold)
    | none => false)

/-- The `try`-block body of `QueryProcessorService.process_query`. -/
def processQueryBody (g : QueryGateways) (query_text : String) (n_results : Nat) :
    Except AppError String :=
  match generateQueryEmbedding g query_text with
  | .error e => .error e
  | .ok query_embedding =>
    let query_for_count := max 10 n_results
    match queryDocuments g.collection query_embedding query_for_count none with
    | .error e => .error e
    | .ok initial_chunks_data =>
      if initial_chunks_data = [] then
        .ok (generateHelpfulFailureResponse g.chatModel "retrieval_failure" query_text)
      else
        let truly_relevant_chunks := relevanceFilter initial_chunks_data RELEVANCE_THRESHOLD
        if truly_relevant_chunks = [] then
          .ok (generateHelpfulFailureResponse g.chatModel "retrieval_failure" query_text)
        else
          let context_chunks_for_llm := truly_relevant_chunks.take n_results
          let context_chunks_text := context_chunks_for_llm.map (fun c => c.text_chunk)
          match synthesizeAnswer g.chatModel query_text context_chunks_text with
          | .error e => .error e
          | .ok llm_response =>
            if llm_response = LLM_NO_ANSWER_RESPONSE then
              .ok (generateHelpfulFailureResponse g.chatModel "synthesis_failure" query_text)
            else .ok llm_response

/-- Source `QueryProcessorService.process_query`: the `try/except` wrapper re-raises
`LLMError` and `QueryProcessingError` unchanged and turns every other exception
into a `QueryProcessingError`. -/
def processQuery (g : QueryGateways) (query_text : String) (n_results : Nat) :
    Except AppError String :=
  match processQueryBody g query_text n_results with
  | .ok s => .ok s
  | .error e =>
    match e with
    | .llmError m d => .error (.llmError m d)
    | .queryProcessingError m d => .error (.queryProcessingError m d)
    | _ => .error (.queryProcessingError "An unexpected server error occurred." "")

/-! ## Python call binding (for the stateful-call claims) -/

/-- The parameter names of `QueryProcessorService.process_query` in the source,
`self` aside — the names a keyword argument may bind to. -/
def processQueryParams : List String := ["query_text", "n_results"]

/-- The keyword arguments of the `qp_service.process_query(...)` call in
`interactions_api.py` (the stateful, per-interaction query endpoint). -/
def interactionsApiCallKwargs : List String :=
  ["query_text", "n_results", "chat_history", "allowed_doc_ids"]

/-- Python keyword binding: a call binds only if every keyword names a declared
parameter; an unexpected keyword raises `TypeError`. -/
def kwargsBind (params kwargs : List String) : Bool :=
  kwargs.all (fun k => params.contains k)

/-! ## Helper lemmas -/

/-- The sentence splitter always returns at least one segment. -/
theorem splitSentencesGo_ne_nil (s : List Char) :
    ∀ (skipping : Bool) (acc : List Char), splitSentencesGo skipping acc s ≠ [] := by
  induction s with
  | nil => intro skipping acc; simp [splitSentencesGo]
  | cons c cs ih =>
    intro skipping acc
    rw [splitSentencesGo]
    by_cases h1 : (skipping && isPySpace c) = true
    · rw [if_pos h1]; exact ih true acc
    · rw [if_neg h1]
      by_cases h2 : (headPunct acc && isPySpace c) = true
      · rw [if_pos h2]; exact List.cons_ne_nil _ _
      · rw [if_neg h2]; exact ih false (c :: acc)

/-- The flush-at-last-index disjunct makes the chunk loop yield at least once on
a non-empty sentence list (with `total` the true total count). -/
theorem chunkLoop_ne_nil (n : Nat) :
    ∀ (l : List String), l ≠ [] → ∀ (i : Nat) (cur : List String),
      chunkLoop n (i + l.length) i cur l ≠ [] := by
  intro l
  induction l with
  | nil => intro h; exact absurd rfl h
  | cons s rest ih =>
    intro _ i cur
    by_cases hc : (i + 1) % n = 0 ∨ i = (i + (s :: rest).length) - 1
    · rw [chunkLoop, if_pos hc]
      exact List.cons_ne_nil _ _
    · have hrest : rest ≠ [] := by
        intro he
        subst he
        simp at hc
      rw [chunkLoop, if_neg hc]
      have h2 := ih hrest (i + 1) (cur ++ [s])
      have harith : i + 1 + rest.length = i + (s :: rest).length := by
        simp [List.length_cons]
        omega
      rwa [harith] at h2

/-- The list `formatResults` is empty exactly when the id list is. -/
theorem formatResults_eq_nil_iff (raw : ChromaRaw) : formatResults raw = [] ↔ raw.ids = [] := by
  unfold formatResults
  simp [List.map_eq_nil_iff, List.range_eq_nil, List.length_eq_zero]

/-! ## C10 -/

/-- C10: for every non-empty input string and positive window size, the chunker
yields at least one chunk (the sentence splitter always produces at least one
sentence), so the zero-chunk skip branch of `process_documents` is unreachable
for a non-empty cleaned text. -/
theorem chunkTextBySentences_ne_nil (text : String) (n : Nat)
    (htext : text ≠ "") (_hn : 1 ≤ n) : chunkTextBySentences text n ≠ [] := by
  unfold chunkTextBySentences
  rw [if_neg htext]
  have hsent : splitSentences text ≠ [] := splitSentencesGo_ne_nil text.data false []
  have := chunkLoop_ne_nil n (splitSentences text) hsent 0 []
  simpa using this

/-- Witness for C10 at a concrete input. -/
theorem chunkTextBySentences_ne_nil_witness :
    ("Hello. World." ≠ "" ∧ 1 ≤ 5) ∧ chunkTextBySentences "Hello. World." 5 ≠ [] :=
  ⟨⟨by decide, by decide⟩, chunkTextBySentences_ne_nil "Hello. World." 5 (by decide) (by decide)⟩

/-! ## C7 -/

/-- C7: the relevance filter keeps exactly the candidates whose distance is
present and strictly below the threshold, preserving input order (it is a
sublist of the input), and it is monotone in the threshold: for `t1 < t2` the
`t1`-filtered list is a (order-preserving) sublist, hence a subset, of the
`t2`-filtered list. -/
theorem relevanceFilter_pred (c : Candidate) (t : ℚ) :
    ((match c.distance with | some d => decide (d < t) | none => false) = true)
      ↔ ∃ d, c.distance = some d ∧ d < t := by
  cases hd : c.distance <;> simp

/-- C7: the relevance filter keeps exactly the candidates whose distance is
present and strictly below the threshold, preserving input order (it is a
sublist of the input), and it is monotone in the threshold: for `t1 < t2` the
`t1`-filtered list is an (order-preserving) sublist, hence a subset, of the
`t2`-filtered list. -/
theorem relevanceFilter_spec (C : List Candidate) (t1 t2 : ℚ) (h12 : t1 < t2) :
    (relevanceFilter C t1).Sublist C
    ∧ (∀ c, c ∈ relevanceFilter C t1 ↔ c ∈ C ∧ ∃ d, c.distance = some d ∧ d < t1)
    ∧ (relevanceFilter C t1).Sublist (relevanceFilter C t2)
    ∧ (∀ c, c ∈ relevanceFilter C t1 → c ∈ relevanceFilter C t2) := by
  have hmono : (relevanceFilter C t1).Sublist (relevanceFilter C t2) := by
    apply List.monotone_filter_right
    intro c hc
    rw [relevanceFilter_pred] at hc ⊢
    obtain ⟨d, hd, hlt⟩ := hc
    exact ⟨d, hd, lt_trans hlt h12⟩
  refine ⟨List.filter_sublist _, fun c => ?_, hmono, fun c hc => hmono.subset hc⟩
  unfold relevanceFilter
  rw [List.mem_filter, relevanceFilter_pred]

/-- Witness for C7 at a concrete input. -/
theorem relevanceFilter_spec_witness :
    ((1 : ℚ) / 2 < 1) ∧
      ((relevanceFilter [⟨"a", some "x", none, some 0⟩] (1 / 2)).Sublist
          [⟨"a", some "x", none, some 0⟩]
        ∧ (∀ c, c ∈ relevanceFilter [⟨"a", some "x", none, some 0⟩] (1 / 2) ↔
            c ∈ [⟨"a", some "x", none, some 0⟩] ∧ ∃ d, c.distance = some d ∧ d < 1 / 2)
        ∧ (relevanceFilter [⟨"a", some "x", none, some 0⟩] (1 / 2)).Sublist
            (relevanceFilter [⟨"a", some "x", none, some 0⟩] 1)
        ∧ (∀ c, c ∈ relevanceFilter [⟨"a", some "x", none, some 0⟩] (1 / 2) →
            c ∈ relevanceFilter [⟨"a", some "x", none, some 0⟩] 1)) :=
  ⟨by norm_num, relevanceFilter_spec [⟨"a", some "x", none, some 0⟩] (1 / 2) 1 (by norm_num)⟩

/-! ## C2 -/

/-- C2 (code bug): the stateful call in `interactions_api.py` passes the keyword
arguments `chat_history` and `allowed_doc_ids`, which the `process_query`
signature in the source does not declare, so the call does not bind (it raises
`TypeError` at run time) — the claimed stateful variant of the orchestrator is
not implemented. -/
theorem statefulCallDoesNotBind :
    kwargsBind processQueryParams interactionsApiCallKwargs = false
    ∧ processQueryParams.contains "chat_history" = false
    ∧ processQueryParams.contains "allowed_doc_ids" = false := by
  refine ⟨?_, ?_, ?_⟩ <;> rfl

/-! ## C3 -/

/-- C3 (code bug, the intended short-circuit lives one layer down): with a
provided-but-empty `allowed_doc_ids`, `query_documents` returns `[]` without
consulting the store — the result does not depend on the collection's `query`
capability at all. -/
theorem queryDocuments_empty_scope (coll coll2 : ChromaCollection)
    (emb : Embedding) (n : Nat) :
    queryDocuments (some coll) emb n (some []) = .ok []
    ∧ queryDocuments (some coll) emb n (some []) = queryDocuments (some coll2) emb n (some []) :=
  ⟨rfl, rfl⟩

/-! ## C9 -/

/-- C9: the only errors `process_query` can surface are `LLMError` and
`QueryProcessingError`; every other exception raised during orchestration
(vector-store failures included) is re-raised wrapped as a
`QueryProcessingError`. -/
theorem processQuery_error_classes (g : QueryGateways) (q : String) (n : Nat) (e : AppError)
    (h : processQuery g q n = .error e) :
    (∃ m d, e = AppError.llmError m d) ∨ (∃ m d, e = AppError.queryProcessingError m d) := by
  unfold processQuery at h
  cases hb : processQueryBody g q n with
  | ok s => rw [hb] at h; cases h
  | error e0 =>
    rw [hb] at h
    cases e0 with
    | llmError m d => left; exact ⟨m, d, (Except.error.inj h).symm⟩
    | queryProcessingError m d => right; exact ⟨m, d, (Except.error.inj h).symm⟩
    | vectorDBError m d =>
      right
      exact ⟨"An unexpected server error occurred.", "", (Except.error.inj h).symm⟩
    | pyError m =>
      right
      exact ⟨"An unexpected server error occurred.", "", (Except.error.inj h).symm⟩

/-- A gateway bundle whose vector store is uninitialized: its raised
`VectorDBError` must surface as a `QueryProcessingError`. -/
def gNoCollection : QueryGateways :=
  { genaiEmbed := fun _ => some [1]
    chatModel := none
    collection := none }

/-- Witness for C9 at a concrete input. -/
theorem processQuery_error_classes_witness :
    (∃ m d, AppError.queryProcessingError "An unexpected server error occurred." ""
        = AppError.llmError m d)
    ∨ (∃ m d, AppError.queryProcessingError "An unexpected server error occurred." ""
        = AppError.queryProcessingError m d) :=
  processQuery_error_classes gNoCollection "q" 5
    (AppError.queryProcessingError "An unexpected server error occurred." "") rfl

/-! ## C5 -/

/-- C5: once the pipeline reaches synthesis, if the synthesis stage's response
is exactly the sentinel, `process_query` takes the synthesis-failure branch and
returns that branch's message (and in particular not the sentinel, as long as
the failure message itself differs from it); any other synthesis response is
returned as the answer. -/
theorem processQuery_sentinel_spec (g : QueryGateways) (q : String) (n : Nat)
    (emb : Embedding) (coll : ChromaCollection) (raw : ChromaRaw) (s : String)
    (hcoll : g.collection = some coll)
    (hemb : g.genaiEmbed q = some emb)
    (hq : coll.query emb (max 10 n) none = some raw)
    (hids : raw.ids ≠ [])
    (hrel : relevanceFilter (formatResults raw) RELEVANCE_THRESHOLD ≠ [])
    (hsyn : synthesizeAnswer g.chatModel q
        (((relevanceFilter (formatResults raw) RELEVANCE_THRESHOLD).take n).map
          (fun c => c.text_chunk)) = .ok s) :
    (s = LLM_NO_ANSWER_RESPONSE →
      processQuery g q n
        = .ok (generateHelpfulFailureResponse g.chatModel "synthesis_failure" q)
      ∧ (generateHelpfulFailureResponse g.chatModel "synthesis_failure" q
            ≠ LLM_NO_ANSWER_RESPONSE →
          processQuery g q n ≠ .ok LLM_NO_ANSWER_RESPONSE))
    ∧ (s ≠ LLM_NO_ANSWER_RESPONSE → processQuery g q n = .ok s) := by
  have hfmt : ¬ formatResults raw = [] :=
    fun hf => hids ((formatResults_eq_nil_iff raw).mp hf)
  have hbody : processQueryBody g q n =
      (if s = LLM_NO_ANSWER_RESPONSE then
        .ok (generateHelpfulFailureResponse g.chatModel "synthesis_failure" q)
      else .ok s) := by
    unfold processQueryBody generateQueryEmbedding queryDocuments
    simp only [hemb, hcoll, hq, if_neg hids, if_neg hfmt, if_neg hrel, hsyn]
  have hpq : processQuery g q n =
      (if s = LLM_NO_ANSWER_RESPONSE then
        .ok (generateHelpfulFailureResponse g.chatModel "synthesis_failure" q)
      else .ok s) := by
    unfold processQuery
    rw [hbody]
    by_cases hs : s = LLM_NO_ANSWER_RESPONSE <;> simp [hs]
  constructor
  · intro hs
    rw [hpq, if_pos hs]
    refine ⟨rfl, fun hne hcontra => hne ?_⟩
    exact (Except.ok.inj hcontra)
  · intro hs
    rw [hpq, if_neg hs]

/-- A gateway bundle whose chat model always answers with the exact sentinel. -/
def sentinelCollection : ChromaCollection :=
  ⟨fun _ _ _ => some ⟨["c0"], ["some context"], [[]], [0]⟩⟩

/-- The raw store result used by the sentinel scenario. -/
def sentinelRaw : ChromaRaw := ⟨["c0"], ["some context"], [[]], [0]⟩

/-- Gateways for the sentinel scenario. -/
def sentinelGateways : QueryGateways :=
  { genaiEmbed := fun _ => some [0]
    chatModel := some (fun _ => some LLM_NO_ANSWER_RESPONSE)
    collection := some sentinelCollection }

/-- Witness for C5 at a concrete input. -/
theorem processQuery_sentinel_spec_witness :
    (LLM_NO_ANSWER_RESPONSE = LLM_NO_ANSWER_RESPONSE →
      processQuery sentinelGateways "q" 5
        = .ok (generateHelpfulFailureResponse sentinelGateways.chatModel "synthesis_failure" "q")
      ∧ (generateHelpfulFailureResponse sentinelGateways.chatModel "synthesis_failure" "q"
            ≠ LLM_NO_ANSWER_RESPONSE →
          processQuery sentinelGateways "q" 5 ≠ .ok LLM_NO_ANSWER_RESPONSE))
    ∧ (LLM_NO_ANSWER_RESPONSE ≠ LLM_NO_ANSWER_RESPONSE →
        processQuery sentinelGateways "q" 5 = .ok LLM_NO_ANSWER_RESPONSE) :=
  processQuery_sentinel_spec sentinelGateways "q" 5 [0] sentinelCollection sentinelRaw
    LLM_NO_ANSWER_RESPONSE rfl rfl rfl (by decide) (by decide) rfl

/-! ## C1 -/

/-- If every successful chat-model response is non-empty after stripping, the
failure-message generator never returns an empty string. -/
theorem generateHelpfulFailureResponse_ne_empty (cm : Option (String → Option String))
    (ft q : String)
    (hllm : ∀ f p t, cm = some f → f p = some t → pyStrip t ≠ "") :
    generateHelpfulFailureResponse cm ft q ≠ "" := by
  unfold generateHelpfulFailureResponse
  cases cm with
  | none =>
    show "I'm sorry, I couldn't find an answer and my response generator is also offline." ≠ ""
    decide
  | some respond =>
    show (match failurePromptChoice ft q with
      | none => "I'm sorry, an unexpected error occurred."
      | some prompt =>
        match respond prompt with
        | some t => pyStrip t
        | none => "I'm sorry, I couldn't find an answer to your question.") ≠ ""
    cases failurePromptChoice ft q with
    | none =>
      show "I'm sorry, an unexpected error occurred." ≠ ""
      decide
    | some prompt =>
      show (match respond prompt with
        | some t => pyStrip t
        | none => "I'm sorry, I couldn't find an answer to your question.") ≠ ""
      cases hr : respond prompt with
      | none =>
        show "I'm sorry, I couldn't find an answer to your question." ≠ ""
        decide
      | some t =>
        show pyStrip t ≠ ""
        exact hllm respond prompt t rfl hr

/-- If every successful chat-model response is non-empty after stripping, the
synthesis stage never succeeds with an empty string. -/
theorem synthesizeAnswer_ok_nonempty (cm : Option (String → Option String))
    (q : String) (chunks : List (Option String)) (r : String)
    (hllm : ∀ f p t, cm = some f → f p = some t → pyStrip t ≠ "")
    (h : synthesizeAnswer cm q chunks = .ok r) : r ≠ "" := by
  unfold synthesizeAnswer at h
  split at h
  · have hr0 : "Error: Model not configured." = r := Except.ok.inj h
    rw [← hr0]
    decide
  · rename_i respond
    split at h
    · exact Except.noConfusion h
    · rename_i ctx hctx
      split at h
      · rename_i t ht
        have hr0 : pyStrip t = r := Except.ok.inj h
        rw [← hr0]
        exact hllm respond (synthesisPrompt q ctx) t rfl ht
      · have hr0 : "An error occurred while generating the answer." = r := Except.ok.inj h
        rw [← hr0]
        decide

/-- C1 (amended): whenever `process_query` returns (rather than raises), the
returned string is non-empty, provided every successful chat-model response is
non-empty after stripping; the fixed fallback strings used when the LLM is
unconfigured or raises are all non-empty. -/
theorem processQuery_ok_nonempty (g : QueryGateways) (q : String) (n : Nat)
    (hllm : ∀ f p t, g.chatModel = some f → f p = some t → pyStrip t ≠ "")
    (s : String) (h : processQuery g q n = .ok s) : s ≠ "" := by
  have hfail : ∀ ft, generateHelpfulFailureResponse g.chatModel ft q ≠ "" :=
    fun ft => generateHelpfulFailureResponse_ne_empty g.chatModel ft q hllm
  unfold processQuery at h
  split at h
  · rename_i s0 hbody
    have hs : s0 = s := Except.ok.inj h
    subst hs
    simp only [processQueryBody] at hbody
    split at hbody
    · exact Except.noConfusion hbody
    · rename_i emb hemb
      split at hbody
      · exact Except.noConfusion hbody
      · rename_i initial hqd
        split at hbody
        · have := Except.ok.inj hbody
          rw [← this]
          exact hfail _
        · split at hbody
          · have := Except.ok.inj hbody
            rw [← this]
            exact hfail _
          · split at hbody
            · exact Except.noConfusion hbody
            · rename_i r hsa
              split at hbody
              · have := Except.ok.inj hbody
                rw [← this]
                exact hfail _
              · have := Except.ok.inj hbody
                rw [← this]
                exact synthesizeAnswer_ok_nonempty g.chatModel q _ r hllm hsa
  · rename_i e hbody
    split at h <;> exact Except.noConfusion h

/-- Gateways for the amended-C1 witness: the chat model answers a fixed
non-empty string. -/
def answeringGateways : QueryGateways :=
  { genaiEmbed := fun _ => some [0]
    chatModel := some (fun _ => some "Here is the answer.")
    collection := some sentinelCollection }

/-- Witness for the amended C1 at a concrete input. -/
theorem processQuery_ok_nonempty_witness : "Here is the answer." ≠ "" :=
  processQuery_ok_nonempty answeringGateways "q" 5
    (fun f p t hf ht => by
      injection hf with hf2
      subst hf2
      injection ht with ht2
      subst ht2
      decide)
    "Here is the answer." rfl

/-- Gateways under which the embedding and vector-store steps succeed but the
chat model's successful response is the empty string. -/
def emptyResponseGateways : QueryGateways :=
  { genaiEmbed := fun _ => some [0]
    chatModel := some (fun _ => some "")
    collection := some sentinelCollection }

/-- C1 counterexample: with a successful embedding, a successful store query
returning one relevant chunk, and a chat model that successfully returns an
empty response, `process_query` returns the empty string — the claim's
"never returns an empty string" fails as stated. -/
theorem processQuery_returns_empty_cx :
    emptyResponseGateways.genaiEmbed "q" = some [0]
    ∧ queryDocuments emptyResponseGateways.collection [0] (max 10 5) none
        = .ok [{ chunk_id := "c0", text_chunk := some "some context",
                 metadata := some [], distance := some 0 }]
    ∧ processQuery emptyResponseGateways "q" 5 = .ok "" :=
  ⟨rfl, rfl, rfl⟩

/-! ## C4 -/

/-- The chunk-assembly loop succeeds and produces the paired chunks whenever the
embedding list covers the enumerated indices. -/
theorem buildDocChunks_go (doc_id : String) (md : Metadata) (embs : List Embedding) :
    ∀ (ts : List String) (i : Nat), i + ts.length ≤ embs.length →
      (List.enumFrom i ts).mapM (fun p =>
        (embs.get? p.1).map (fun e => mkProcessedChunk doc_id md p.1 p.2 e))
      = some (chunksOfPairs doc_id md i (ts.zip (embs.drop i))) := by
  intro ts
  induction ts with
  | nil => intro i h; rfl
  | cons t ts ih =>
    intro i h
    have hi : i < embs.length := by
      simp only [List.length_cons] at h
      omega
    have hget : embs.get? i = some embs[i] := by
      rw [List.get?_eq_getElem?, List.getElem?_eq_getElem hi]
    have hdrop : embs.drop i = embs[i] :: embs.drop (i + 1) := List.drop_eq_getElem_cons hi
    have hrec := ih (i + 1) (by simp only [List.length_cons] at h; omega)
    simp only [List.enumFrom, List.mapM_cons, hget, Option.map_some, hrec, hdrop,
      List.zip_cons_cons, chunksOfPairs]
    rfl

/-- Function `buildDocChunks` with a length-matching embedding batch is exactly the
zip-paired chunk list. -/
theorem buildDocChunks_eq_spec (doc_id : String) (md : Metadata) (ts : List String)
    (embs : List Embedding) (hlen : embs.length = ts.length) :
    buildDocChunks doc_id md ts embs = some (chunksOfPairs doc_id md 0 (ts.zip embs)) := by
  unfold buildDocChunks
  have h := buildDocChunks_go doc_id md embs ts 0 (by omega)
  simpa [List.enum] using h

/-- A successful `get_embeddings` call returns one embedding per input text,
given that the external batch call does. -/
theorem getEmbeddings_ok_length (cfg : EmbedConfig) (gw : EmbedGateway)
    (texts : List String) (es : List Embedding)
    (hlen : ∀ ts es2, gw.embedBatch ts = some es2 → es2.length = ts.length)
    (h : getEmbeddings cfg gw texts = .ok es) : es.length = texts.length := by
  unfold getEmbeddings at h
  split at h
  · exact Except.noConfusion h
  · split at h
    · rename_i hts
      have h0 : ([] : List Embedding) = es := Except.ok.inj h
      rw [← h0, hts]
      rfl
    · split at h
      · rename_i es2 hbatch
        have h0 : es2 = es := Except.ok.inj h
        rw [← h0]
        exact hlen texts es2 hbatch
      · exact Except.noConfusion h

/-- C4: one document's embedding failure is locally recovered — under the batch
gateway's one-embedding-per-text contract, `process_documents` never raises and
returns exactly the concatenation, in input order, of the chunks of the
documents whose pre-checks pass and whose embedding call succeeds (failing or
skipped documents contribute nothing). -/
theorem processDocuments_partial_failure (cfg : EmbedConfig) (gw : EmbedGateway)
    (docs : List RawDocument)
    (hlen : ∀ ts es, gw.embedBatch ts = some es → es.length = ts.length) :
    processDocuments cfg gw docs = some (docs.flatMap (fun d => specDocChunks cfg gw d)) := by
  induction docs with
  | nil => rfl
  | cons d ds ih =>
    rw [List.flatMap_cons]
    set rest := ds.flatMap (fun d => specDocChunks cfg gw d) with hrest
    simp only [processDocuments, specDocChunks]
    by_cases h1 : (falsyStr d.doc_id || falsyStr d.text) = true
    · simp only [if_pos h1]
      rw [ih]
      simp [hrest]
    · simp only [if_neg h1]
      by_cases h2 : cleanText (d.text.getD "") (sourceTypeOf (d.metadata.getD [])) = ""
      · simp only [if_pos h2]
        rw [ih]
        simp [hrest]
      · simp only [if_neg h2]
        by_cases h3 : chunkTextBySentences
            (cleanText (d.text.getD "") (sourceTypeOf (d.metadata.getD []))) 5 = []
        · simp only [if_pos h3]
          rw [ih]
          simp [hrest]
        · simp only [if_neg h3]
          cases hge : getEmbeddings cfg gw (chunkTextBySentences
              (cleanText (d.text.getD "") (sourceTypeOf (d.metadata.getD []))) 5) with
          | error msg =>
            rw [ih]
            simp [hrest]
          | ok embs =>
            have hlen2 : embs.length = (chunkTextBySentences
                (cleanText (d.text.getD "") (sourceTypeOf (d.metadata.getD []))) 5).length :=
              getEmbeddings_ok_length cfg gw _ embs hlen hge
            simp only [buildDocChunks_eq_spec _ _ _ _ hlen2]
            rw [ih]
            simp [hrest]

/-- The document set of the spec's partial-failure scenario: three narrative
documents of which exactly the second fails to embed. -/
def threeDocs : List RawDocument :=
  [ { doc_id := some "doc1", text := some "Alpha beta.", metadata := some [("source_type", .s "txt")] }
  , { doc_id := some "doc2", text := some "Bad text.", metadata := some [("source_type", .s "txt")] }
  , { doc_id := some "doc3", text := some "Gamma delta.", metadata := some [("source_type", .s "txt")] } ]

/-- A batch gateway that fails exactly on the second document's chunk batch and
satisfies the one-embedding-per-text contract. -/
def failSecondGateway : EmbedGateway :=
  { embedBatch := fun ts =>
      if ts.contains "Bad text." then none
      else some (ts.map (fun _ => [(1 : ℚ)])) }

/-- Witness for C4: on the three-document scenario the result is defined (no
exception) and contains exactly the chunks of documents 1 and 3. -/
theorem processDocuments_partial_failure_witness :
    processDocuments ⟨true⟩ failSecondGateway threeDocs
      = some (threeDocs.flatMap (fun d => specDocChunks ⟨true⟩ failSecondGateway d))
    ∧ (threeDocs.flatMap (fun d => specDocChunks ⟨true⟩ failSecondGateway d)).map
        (fun c => c.doc_id) = ["doc1", "doc3"] := by
  constructor
  · exact processDocuments_partial_failure ⟨true⟩ failSecondGateway threeDocs
      (fun ts es h => by
        unfold failSecondGateway at h
        simp only at h
        split at h
        · exact Option.noConfusion h
        · have h0 : ts.map (fun _ => [(1 : ℚ)]) = es := Option.some.inj h
          rw [← h0, List.length_map])
  · decide

/-! ## C6 -/

/-- The loop's modular flush condition, phrased on the window fill level. -/
theorem chunkCond (i n : Nat) (hn : 1 ≤ n) : ((i + 1) % n = 0) ↔ (i % n + 1 = n) := by
  rcases Nat.eq_or_lt_of_le hn with h1 | h2
  · rw [← h1]
    simp [Nat.mod_one]
  · have hlt : i % n < n := Nat.mod_lt _ (by omega)
    have hmod : (i + 1) % n = (i % n + 1) % n := by
      conv_lhs => rw [← Nat.mod_add_mod]
    rw [hmod]
    constructor
    · intro h
      by_contra hne
      have hsm : i % n + 1 < n := by omega
      rw [Nat.mod_eq_of_lt hsm] at h
      omega
    · intro h
      rw [h, Nat.mod_self]

/-- Unfolding `sentenceWindows` one window at a time via `take`/`drop`. -/
theorem sentenceWindows_cons_take_drop {α : Type} (n : Nat) (hn : 1 ≤ n)
    (l : List α) (hl : l ≠ []) :
    sentenceWindows n l = l.take n :: sentenceWindows n (l.drop n) := by
  cases l with
  | nil => exact absurd rfl hl
  | cons x xs =>
    rw [sentenceWindows]
    have htake : (x :: xs).take n = x :: xs.take (n - 1) := by
      cases n with
      | zero => omega
      | succ m => simp
    have hdrop : (x :: xs).drop n = xs.drop (n - 1) := by
      cases n with
      | zero => omega
      | succ m => simp
    rw [htake, hdrop]

/-- The chunk loop computes the `intercalate`d windows, for any start index and
pending buffer, as long as `total` is the true total sentence count. -/
theorem chunkLoop_eq_windows (n : Nat) (hn : 1 ≤ n) :
    ∀ (l : List String), l ≠ [] → ∀ (i : Nat) (cur : List String) (total : Nat),
      total = i + l.length →
      chunkLoop n total i cur l
        = String.intercalate " " (cur ++ l.take (n - i % n))
            :: (sentenceWindows n (l.drop (n - i % n))).map (String.intercalate " ") := by
  intro l
  induction l with
  | nil => intro h; exact absurd rfl h
  | cons s rest ih =>
    intro _ i cur total htotal
    have hilt : i % n < n := Nat.mod_lt _ (by omega)
    by_cases hrne : rest = []
    · subst hrne
      have hcond : (i + 1) % n = 0 ∨ i = total - 1 := by
        right
        simp only [List.length_cons, List.length_nil] at htotal
        omega
      rw [chunkLoop, if_pos hcond]
      have htake : [s].take (n - i % n) = [s] := List.take_of_length_le (by simp; omega)
      have hdrop : [s].drop (n - i % n) = [] := List.drop_eq_nil_of_le (by simp; omega)
      rw [htake, hdrop, sentenceWindows]
      rfl
    · have hlen1 : 1 ≤ rest.length := by
        cases rest with
        | nil => exact absurd rfl hrne
        | cons a b => simp
      have hine : i ≠ total - 1 := by
        simp only [List.length_cons] at htotal
        omega
      by_cases hflush : (i + 1) % n = 0
      · rw [chunkLoop, if_pos (Or.inl hflush)]
        have hn1 : n - i % n = 1 := by
          have := (chunkCond i n hn).mp hflush
          omega
        have hrec := ih hrne (i + 1) [] total
          (by simp only [List.length_cons] at htotal ⊢; omega)
        rw [hrec, hflush]
        have hfull : n - 0 = n := by omega
        rw [hfull, hn1]
        have htake : (s :: rest).take 1 = [s] := by simp
        have hdrop : (s :: rest).drop 1 = rest := by simp
        rw [htake, hdrop, List.nil_append,
          sentenceWindows_cons_take_drop n hn rest hrne, List.map_cons]
      · rw [chunkLoop, if_neg (by push_neg; exact ⟨hflush, hine⟩)]
        have hne2 : i % n + 1 ≠ n := fun hc => hflush ((chunkCond i n hn).mpr hc)
        have hmod : (i + 1) % n = i % n + 1 := by
          have hsm : i % n + 1 < n := by omega
          conv_lhs => rw [← Nat.mod_add_mod]
          exact Nat.mod_eq_of_lt hsm
        have hrec := ih hrne (i + 1) (cur ++ [s]) total
          (by simp only [List.length_cons] at htotal ⊢; omega)
        rw [hrec, hmod]
        have htake : (s :: rest).take (n - i % n) = s :: rest.take (n - (i % n + 1)) := by
          have heq : n - i % n = (n - (i % n + 1)) + 1 := by omega
          rw [heq]
          simp
        have hdrop : (s :: rest).drop (n - i % n) = rest.drop (n - (i % n + 1)) := by
          have heq : n - i % n = (n - (i % n + 1)) + 1 := by omega
          rw [heq]
          simp
        rw [htake, hdrop, List.append_assoc, List.singleton_append]

/-- Function `sentenceWindows` is empty exactly on the empty list. -/
theorem sentenceWindows_eq_nil_iff {α : Type} (n : Nat) (l : List α) :
    sentenceWindows n l = [] ↔ l = [] := by
  cases l with
  | nil => simp [sentenceWindows]
  | cons x xs =>
    rw [sentenceWindows]
    simp

/-- Concatenating the windows reproduces the sentence list: nothing is dropped
or duplicated. -/
theorem sentenceWindows_flatten {α : Type} (n : Nat) (_hn : 1 ≤ n) :
    ∀ (l : List α), (sentenceWindows n l).flatten = l := by
  intro l
  induction l using sentenceWindows.induct n with
  | case1 => rw [sentenceWindows]; rfl
  | case2 x xs ih =>
    rw [sentenceWindows, List.flatten_cons, ih, List.cons_append]
    exact congrArg (x :: ·) (List.take_append_drop _ _)

/-- Every window is non-empty and holds at most `n` sentences. -/
theorem sentenceWindows_size {α : Type} (n : Nat) (hn : 1 ≤ n) :
    ∀ (l : List α), ∀ w ∈ sentenceWindows n l, w ≠ [] ∧ w.length ≤ n := by
  intro l
  induction l using sentenceWindows.induct n with
  | case1 => intro w hw; rw [sentenceWindows] at hw; cases hw
  | case2 x xs ih =>
    intro w hw
    rw [sentenceWindows] at hw
    cases hw with
    | head =>
      refine ⟨List.cons_ne_nil _ _, ?_⟩
      simp only [List.length_cons, List.length_take]
      omega
    | tail _ hmem => exact ih w hmem

/-- Every window except possibly the final one holds exactly `n` sentences. -/
theorem sentenceWindows_full {α : Type} (n : Nat) (hn : 1 ≤ n) :
    ∀ (l : List α), ∀ w ∈ (sentenceWindows n l).dropLast, w.length = n := by
  intro l
  induction l using sentenceWindows.induct n with
  | case1 => intro w hw; rw [sentenceWindows] at hw; simp at hw
  | case2 x xs ih =>
    intro w hw
    rw [sentenceWindows] at hw
    cases hrest : sentenceWindows n (xs.drop (n - 1)) with
    | nil => rw [hrest] at hw; cases hw
    | cons r rs =>
      rw [hrest, List.dropLast_cons_of_ne_nil (List.cons_ne_nil r rs)] at hw
      cases hw with
      | head =>
        have hne : xs.drop (n - 1) ≠ [] := by
          intro hc
          rw [hc, (sentenceWindows_eq_nil_iff n ([] : List α)).mpr rfl] at hrest
          exact List.noConfusion hrest
        have hlen : n - 1 ≤ xs.length := by
          by_contra hc
          exact hne (List.drop_eq_nil_of_le (by omega))
        simp only [List.length_cons, List.length_take]
        omega
      | tail _ hmem =>
        rw [← hrest] at hmem
        exact ih w hmem

/-- C6: for non-empty text and positive `n`, the chunker is exactly the
spec-side grouping of the sentence split into consecutive, non-overlapping
windows of `n` sentences (final window possibly shorter), each window rejoined
with single spaces; joining the windows reproduces the sentence sequence, so no
sentence is dropped or duplicated. -/
theorem chunkTextBySentences_spec (text : String) (n : Nat)
    (ht : text ≠ "") (hn : 1 ≤ n) :
    chunkTextBySentences text n
      = (sentenceWindows n (splitSentences text)).map (String.intercalate " ")
    ∧ (sentenceWindows n (splitSentences text)).flatten = splitSentences text
    ∧ (∀ w ∈ sentenceWindows n (splitSentences text), w ≠ [] ∧ w.length ≤ n)
    ∧ (∀ w ∈ (sentenceWindows n (splitSentences text)).dropLast, w.length = n) := by
  have hsent : splitSentences text ≠ [] := splitSentencesGo_ne_nil text.data false []
  refine ⟨?_, sentenceWindows_flatten n hn _, sentenceWindows_size n hn _,
    sentenceWindows_full n hn _⟩
  unfold chunkTextBySentences
  rw [if_neg ht]
  have h := chunkLoop_eq_windows n hn (splitSentences text) hsent 0 []
    (splitSentences text).length (by omega)
  rw [h]
  have h0 : (0 : Nat) % n = 0 := Nat.zero_mod n
  rw [h0, Nat.sub_zero, sentenceWindows_cons_take_drop n hn _ hsent, List.map_cons,
    List.nil_append]

/-- Witness for C6 at the spec's end-to-end scenario A. -/
theorem chunkTextBySentences_spec_witness :
    (chunkTextBySentences "Sentence one. Sentence two. Sentence three." 2
      = (sentenceWindows 2 (splitSentences "Sentence one. Sentence two. Sentence three.")).map
          (String.intercalate " ")
    ∧ (sentenceWindows 2 (splitSentences "Sentence one. Sentence two. Sentence three.")).flatten
        = splitSentences "Sentence one. Sentence two. Sentence three."
    ∧ (∀ w ∈ sentenceWindows 2 (splitSentences "Sentence one. Sentence two. Sentence three."),
        w ≠ [] ∧ w.length ≤ 2)
    ∧ (∀ w ∈ (sentenceWindows 2
          (splitSentences "Sentence one. Sentence two. Sentence three.")).dropLast,
        w.length = 2))
    ∧ chunkTextBySentences "Sentence one. Sentence two. Sentence three." 2
        = ["Sentence one. Sentence two.", "Sentence three."] :=
  ⟨chunkTextBySentences_spec "Sentence one. Sentence two. Sentence three." 2
      (by decide) (by decide),
    by decide⟩

/-! ## C8: idempotence of narrative normalization

The cleaned text satisfies two invariants — every surviving newline is directly
preceded by a boundary-punctuation character, and no two spaces are adjacent —
and on such text each cleaning pass is the identity. -/

/-- Every newline in the list is immediately preceded by a character of the
lookbehind class (`prev` standing for the character before the list). -/
def NlOkA : Option Char → List Char → Prop
  | _, [] => True
  | prev, c :: cs => (c = '\n' → prevKeep prev = true) ∧ NlOkA (some c) cs

/-- No two adjacent spaces (`prevSp` standing for "the previous character is a
space"). -/
def NoTwoSpA : Bool → List Char → Prop
  | _, [] => True
  | prevSp, c :: cs => ¬ (prevSp = true ∧ c = ' ') ∧ NoTwoSpA (c == ' ') cs

/-- Whitespace characters are not boundary punctuation. -/
theorem prevKeep_of_pySpace (c : Char) (h : isPySpace c = true) :
    prevKeep (some c) = false := by
  simp only [isPySpace, Bool.or_eq_true, decide_eq_true_eq] at h
  rcases h with ((((h | h) | h) | h) | h) | h <;> subst h <;> decide

/-- The soft-break pass makes every surviving newline keep-preceded (the
lookbehind context `p` may be replaced by any `q` with the same keep status). -/
theorem nlOkA_joinSoftBreaksAux :
    ∀ (s : List Char) (p q : Option Char), prevKeep p = prevKeep q →
      NlOkA q (joinSoftBreaksAux p s) := by
  intro s
  induction s with
  | nil => intro p q _; trivial
  | cons c cs ih =>
    intro p q hpq
    rw [joinSoftBreaksAux]
    by_cases hc : c = '\n' ∧ prevKeep p = false
    · rw [if_pos hc]
      refine ⟨fun hcon => absurd hcon (by decide), ?_⟩
      refine ih (some c) (some ' ') ?_
      rw [hc.1]
      decide
    · rw [if_neg hc]
      constructor
      · intro hnl
        rw [← hpq]
        cases hpk : prevKeep p with
        | true => rfl
        | false => exact absurd ⟨hnl, hpk⟩ hc
      · exact ih (some c) (some c) rfl

/-- The space-collapsing pass preserves the newline invariant. -/
theorem nlOkA_collapseSpacesGo :
    ∀ (s : List Char) (b : Bool) (p q : Option Char),
      NlOkA p s → prevKeep p = prevKeep q → (b = true → prevKeep q = false) →
      NlOkA q (collapseSpacesGo b s) := by
  intro s
  induction s with
  | nil => intro b p q _ _ _; rw [collapseSpacesGo]; trivial
  | cons c cs ih =>
    intro b p q hok hpq hb
    rw [collapseSpacesGo]
    by_cases hc : c = ' '
    · rw [if_pos hc]
      cases b with
      | true =>
        show NlOkA q (collapseSpacesGo true cs)
        refine ih true (some c) q hok.2 ?_ ?_
        · rw [hc, prevKeep_of_pySpace ' ' (by decide), hb rfl]
        · intro _; exact hb rfl
      | false =>
        show NlOkA q (' ' :: collapseSpacesGo true cs)
        refine ⟨fun hcon => absurd hcon (by decide), ?_⟩
        refine ih true (some c) (some ' ') hok.2 ?_ ?_
        · rw [hc]
        · intro _
          decide
    · rw [if_neg hc]
      constructor
      · intro hnl
        rw [← hpq]
        exact hok.1 hnl
      · exact ih false (some c) (some c) hok.2 rfl (by intro h; cases h)

/-- The space-collapsing pass leaves no two adjacent spaces. -/
theorem noTwoSpA_collapseSpacesGo :
    ∀ (s : List Char) (b : Bool), NoTwoSpA b (collapseSpacesGo b s) := by
  intro s
  induction s with
  | nil => intro b; rw [collapseSpacesGo]; trivial
  | cons c cs ih =>
    intro b
    rw [collapseSpacesGo]
    by_cases hc : c = ' '
    · rw [if_pos hc]
      cases b with
      | true =>
        show NoTwoSpA true (collapseSpacesGo true cs)
        exact ih true
      | false =>
        show NoTwoSpA false (' ' :: collapseSpacesGo true cs)
        refine ⟨fun h => Bool.noConfusion h.1, ?_⟩
        have h2 : (' ' == ' ') = true := by decide
        rw [h2]
        exact ih true
    · rw [if_neg hc]
      refine ⟨fun h => hc h.2, ?_⟩
      have h2 : (c == ' ') = false := by
        simp only [beq_eq_false_iff_ne, ne_eq]
        exact hc
      rw [h2]
      exact ih false

/-- The newline invariant restricts to prefixes. -/
theorem nlOkA_append_left :
    ∀ (u t : List Char) (p : Option Char), NlOkA p (u ++ t) → NlOkA p u := by
  intro u
  induction u with
  | nil => intro t p _; trivial
  | cons c cs ih =>
    intro t p h
    exact ⟨h.1, ih t (some c) h.2⟩

/-- After dropping leading whitespace the head is not a newline, so the
invariant holds for any lookbehind. -/
theorem nlOkA_dropWhile :
    ∀ (s : List Char) (p : Option Char), NlOkA p s →
      ∀ q, NlOkA q (s.dropWhile isPySpace) := by
  intro s
  induction s with
  | nil => intro p _ q; trivial
  | cons c cs ih =>
    intro p h q
    rw [List.dropWhile_cons]
    by_cases hc : isPySpace c = true
    · rw [if_pos hc]
      exact ih (some c) h.2 q
    · rw [if_neg hc]
      exact ⟨fun hnl => absurd (hnl ▸ (by decide : isPySpace '\n' = true)) hc, h.2⟩

/-- The newline invariant is preserved by `str.strip()`, for any lookbehind. -/
theorem nlOkA_pyStripL (s : List Char) (p : Option Char) (h : NlOkA p s) (q : Option Char) :
    NlOkA q (pyStripL s) := by
  unfold pyStripL
  obtain ⟨t, ht⟩ := List.rdropWhile_prefix isPySpace (s.dropWhile isPySpace)
  refine nlOkA_append_left _ t q ?_
  rw [ht]
  exact nlOkA_dropWhile s p h q

/-- The space invariant weakens to a cleared flag. -/
theorem noTwoSpA_mono : ∀ (s : List Char) (b : Bool), NoTwoSpA b s → NoTwoSpA false s := by
  intro s
  induction s with
  | nil => intro b _; trivial
  | cons c cs _ => intro b h; exact ⟨fun hcon => Bool.noConfusion hcon.1, h.2⟩

/-- The space invariant restricts to prefixes. -/
theorem noTwoSpA_append_left :
    ∀ (u t : List Char) (b : Bool), NoTwoSpA b (u ++ t) → NoTwoSpA b u := by
  intro u
  induction u with
  | nil => intro t b _; trivial
  | cons c cs ih => intro t b h; exact ⟨h.1, ih t (c == ' ') h.2⟩

/-- The space invariant restricts to suffixes (with a cleared flag). -/
theorem noTwoSpA_append_right :
    ∀ (u t : List Char) (b : Bool), NoTwoSpA b (u ++ t) → NoTwoSpA false t := by
  intro u
  induction u with
  | nil => intro t b h; exact noTwoSpA_mono t b h
  | cons c cs ih => intro t b h; exact ih t (c == ' ') h.2

/-- The space invariant is preserved by `str.strip()`. -/
theorem noTwoSpA_pyStripL (s : List Char) (b : Bool) (h : NoTwoSpA b s) :
    NoTwoSpA false (pyStripL s) := by
  unfold pyStripL
  have hsfx : s.dropWhile isPySpace <:+ s := List.dropWhile_suffix isPySpace
  obtain ⟨u, hu⟩ := hsfx
  have h1 : NoTwoSpA false (s.dropWhile isPySpace) := by
    refine noTwoSpA_append_right u _ b ?_
    rw [hu]
    exact h
  obtain ⟨t, ht⟩ := List.rdropWhile_prefix isPySpace (s.dropWhile isPySpace)
  refine noTwoSpA_append_left _ t false ?_
  rw [ht]
  exact h1

/-- Python `str.strip()` is idempotent. -/
theorem pyStripL_idem (s : List Char) : pyStripL (pyStripL s) = pyStripL s := by
  unfold pyStripL
  have hdw : ((s.dropWhile isPySpace).rdropWhile isPySpace).dropWhile isPySpace
      = (s.dropWhile isPySpace).rdropWhile isPySpace := by
    cases hb : (s.dropWhile isPySpace).rdropWhile isPySpace with
    | nil => rfl
    | cons x xs =>
      have hx : isPySpace x = false := by
        obtain ⟨t, ht⟩ := List.rdropWhile_prefix isPySpace (s.dropWhile isPySpace)
        rw [hb] at ht
        have ha2 : (s.dropWhile isPySpace).dropWhile isPySpace = s.dropWhile isPySpace :=
          List.dropWhile_idempotent _ _
        rw [← ht, List.cons_append, List.dropWhile_cons] at ha2
        cases hxx : isPySpace x with
        | false => rfl
        | true =>
          rw [if_pos hxx] at ha2
          have hlen := congrArg List.length ha2
          rw [List.length_cons] at hlen
          have hle := lengthDropWhileLe isPySpace (xs ++ t)
          omega
      rw [List.dropWhile_cons, hx]
      simp
  rw [hdw, List.rdropWhile_idempotent]

/-- Under the newline invariant with a non-keep lookbehind, the leading
whitespace run contains no newline. -/
theorem noNlInLeadingWs :
    ∀ (s : List Char) (p : Option Char), NlOkA p s → prevKeep p = false →
      '\n' ∉ s.takeWhile isPySpace := by
  intro s
  induction s with
  | nil => intro p _ _ hmem; simp at hmem
  | cons c cs ih =>
    intro p h hp hmem
    rw [List.takeWhile_cons] at hmem
    by_cases hc : isPySpace c = true
    · rw [if_pos hc] at hmem
      have hcne : c ≠ '\n' := by
        intro he
        rw [h.1 he] at hp
        cases hp
      rcases List.mem_cons.mp hmem with he | hm
      · exact hcne he.symm
      · exact ih (some c) h.2 (prevKeep_of_pySpace c hc) hm
    · rw [if_neg hc] at hmem
      simp at hmem

/-- On text satisfying the newline invariant, the blank-line pass is the
identity: no two newlines are separated by pure whitespace. -/
theorem collapseBlankLinesGo_id :
    ∀ (s : List Char) (p : Option Char), NlOkA p s → collapseBlankLinesGo false s = s := by
  intro s
  induction s with
  | nil => intro p _; rfl
  | cons c cs ih =>
    intro p h
    rw [collapseBlankLinesGo]
    by_cases hc : c = '\n'
    · have hnot : '\n' ∉ cs.takeWhile isPySpace :=
        noNlInLeadingWs cs (some c) h.2 (by rw [hc]; decide)
      rw [if_neg (fun hcon => hnot hcon.2), ih (some c) h.2]
    · rw [if_neg (fun hcon => hc hcon.1), ih (some c) h.2]

/-- On text satisfying the newline invariant, the soft-break pass is the
identity: every newline is keep-preceded. -/
theorem joinSoftBreaksAux_id :
    ∀ (s : List Char) (p : Option Char), NlOkA p s → joinSoftBreaksAux p s = s := by
  intro s
  induction s with
  | nil => intro p _; rfl
  | cons c cs ih =>
    intro p h
    rw [joinSoftBreaksAux]
    have hcond : ¬ (c = '\n' ∧ prevKeep p = false) := by
      rintro ⟨hnl, hf⟩
      rw [h.1 hnl] at hf
      cases hf
    rw [if_neg hcond, ih (some c) h.2]

/-- On text satisfying the space invariant, the space-collapsing pass is the
identity. -/
theorem collapseSpacesGo_id :
    ∀ (s : List Char) (b : Bool), NoTwoSpA b s → collapseSpacesGo b s = s := by
  intro s
  induction s with
  | nil => intro b _; rfl
  | cons c cs ih =>
    intro b h
    rw [collapseSpacesGo]
    by_cases hc : c = ' '
    · subst hc
      rw [if_pos rfl]
      cases b with
      | true => exact absurd ⟨rfl, rfl⟩ h.1
      | false =>
        show ' ' :: collapseSpacesGo true cs = ' ' :: cs
        rw [ih true h.2]
    · rw [if_neg hc]
      have hb : (c == ' ') = false := by
        simp only [beq_eq_false_iff_ne, ne_eq]
        exact hc
      rw [ih false (hb ▸ h.2)]

/-- The cleaned text satisfies both invariants. -/
theorem cleanNarrativeTextL_invariants (s : List Char) :
    NlOkA none (cleanNarrativeTextL s) ∧ NoTwoSpA false (cleanNarrativeTextL s) := by
  unfold cleanNarrativeTextL collapseSpaces joinSoftBreaks
  constructor
  · refine nlOkA_pyStripL _ none ?_ none
    refine nlOkA_collapseSpacesGo _ false none none ?_ rfl (by intro hcon; cases hcon)
    exact nlOkA_joinSoftBreaksAux _ none none rfl
  · exact noTwoSpA_pyStripL _ false (noTwoSpA_collapseSpacesGo _ false)

/-- Idempotence of the narrative clean at the character-list level. -/
theorem cleanNarrativeTextL_idem (s : List Char) :
    cleanNarrativeTextL (cleanNarrativeTextL s) = cleanNarrativeTextL s := by
  obtain ⟨h1, h2⟩ := cleanNarrativeTextL_invariants s
  show pyStripL (collapseSpaces (joinSoftBreaks (collapseBlankLines (cleanNarrativeTextL s))))
      = cleanNarrativeTextL s
  rw [show collapseBlankLines (cleanNarrativeTextL s) = cleanNarrativeTextL s from
      collapseBlankLinesGo_id _ none h1]
  rw [show joinSoftBreaks (cleanNarrativeTextL s) = cleanNarrativeTextL s from
      joinSoftBreaksAux_id _ none h1]
  rw [show collapseSpaces (cleanNarrativeTextL s) = cleanNarrativeTextL s from
      collapseSpacesGo_id _ false h2]
  unfold cleanNarrativeTextL
  exact pyStripL_idem _

/-- Idempotence of `_clean_narrative_text`. -/
theorem cleanNarrativeText_idem (t : String) :
    cleanNarrativeText (cleanNarrativeText t) = cleanNarrativeText t := by
  unfold cleanNarrativeText
  rw [show (String.mk (cleanNarrativeTextL t.data)).data = cleanNarrativeTextL t.data from rfl,
    cleanNarrativeTextL_idem]

/-- C8: narrative normalization is idempotent — for every text `t` and every
narrative source type `s`, `clean_text (clean_text t s) s = clean_text t s`
(unconditionally: the first pass can never reintroduce a pattern the second
pass would rewrite). -/
theorem cleanText_narrative_idempotent (t s : String) (hs : s ∈ narrativeSourceTypes) :
    cleanText (cleanText t s) s = cleanText t s := by
  by_cases ht : t = ""
  · have h0 : cleanText t s = "" := by
      unfold cleanText
      rw [if_pos ht]
    rw [h0]
    unfold cleanText
    rw [if_pos rfl]
  · have hstep : cleanText t s = cleanNarrativeText t := by
      unfold cleanText
      rw [if_neg ht, if_pos hs]
    rw [hstep]
    by_cases h2 : cleanNarrativeText t = ""
    · rw [h2]
      unfold cleanText
      rw [if_pos rfl]
    · have hstep2 : cleanText (cleanNarrativeText t) s
          = cleanNarrativeText (cleanNarrativeText t) := by
        unfold cleanText
        rw [if_neg h2, if_pos hs]
      rw [hstep2, cleanNarrativeText_idem]

/-- Witness for C8 at a concrete input. -/
theorem cleanText_narrative_idempotent_witness :
    ("txt" ∈ narrativeSourceTypes)
    ∧ cleanText (cleanText "A line\nbroken.  Twice!\n\nNew paragraph." "txt") "txt"
        = cleanText "A line\nbroken.  Twice!\n\nNew paragraph." "txt" :=
  ⟨by decide,
    cleanText_narrative_idempotent "A line\nbroken.  Twice!\n\nNew paragraph." "txt" (by decide)⟩

end RagPipeline
